import Mathlib

/-!
Shallow embedding of the project-armstrong control loop
(src/agents.py, src/lunar_tools.py, src/main_mission.py, src/evaluate_agent.py).

Rewards, accumulated as Python floats in the source, are embedded as rationals
(ℚ); the claims under verification only use addition and order comparisons,
which the embedding preserves.  The gymnasium environment is external to the
repository: it is embedded as an oracle `Env` giving, for each step counter
value and actuator code, the per-frame reward and the terminated/truncated
flags.  Telemetry contents (the eight-scalar state vector rendered to text)
do not enter any claim and are represented by the step counter that
`get_telemetry` copies into `steps_taken`.
-/

namespace Armstrong

/-- Result dictionary of the ADK tool `execute_maneuver` in src/agents.py:
either a success dict echoing the inputs, or an error dict with a message. -/
inductive ToolResult where
  | success (action : String) (duration : Int) (reasoning : String)
  | error (error_message : String)
deriving DecidableEq, Repr

/-- The `valid_actions` list of src/agents.py line 32. -/
def valid_actions : List String := ["MAIN_ENGINE", "LEFT_ENGINE", "RIGHT_ENGINE", "HOLD"]

/-- src/agents.py lines 8-51, the ActionValidator: the tool validates
`action` against `valid_actions` and `duration` against 1..10, returning a
success dict echoing the inputs, or an error dict with a message. -/
def execute_maneuver_tool (action : String) (duration : Int) (reasoning : String) : ToolResult :=
  if action ∉ valid_actions then
    ToolResult.error ("Invalid action '" ++ action ++ "'. Must be one of: "
      ++ String.intercalate ", " valid_actions)
  else if ¬ (1 ≤ duration ∧ duration ≤ 10) then
    ToolResult.error ("Invalid duration " ++ toString duration ++ ". Must be between 1-10 frames.")
  else
    ToolResult.success action duration reasoning

/-- src/lunar_tools.py lines 73-80: `action_map.get(action_name, 0)`.
Unknown action names are mapped to the dict-get default 0 (the no-op code). -/
def action_map_get (action_name : String) : Nat :=
  if action_name = "HOLD" then 0
  else if action_name = "MAIN_ENGINE" then 2
  else if action_name = "LEFT_ENGINE" then 3
  else if action_name = "RIGHT_ENGINE" then 1
  else 0

/-- One `env.step` outcome of the external gymnasium process
(reward, terminated, truncated). -/
structure StepOut where
  reward : ℚ
  terminated : Bool
  truncated : Bool
deriving DecidableEq, Repr

/-- `self.done = terminated or truncated` (src/lunar_tools.py line 90). -/
def is_term (o : StepOut) : Bool := o.terminated || o.truncated

/-- The external process as a deterministic oracle: step counter and actuator
code to step outcome.  `LunarLanderInterface` calls `env.step` once per frame
with `self.steps` increasing by one each call, so indexing by the step counter
captures any one trajectory of the external process. -/
def Env : Type := Nat → Nat → StepOut

/-- The mutable fields of `LunarLanderInterface` the claims depend on:
`self.steps`, `self.total_reward`, `self.done` (src/lunar_tools.py lines 8-14). -/
structure LanderState where
  steps : Nat
  total_reward : ℚ
  done : Bool
deriving DecidableEq, Repr

/-- The returned dict of `execute_maneuver` (src/lunar_tools.py lines 101-107).
`final_telemetry_steps` is the `steps_taken` field of the final telemetry. -/
structure ExecResult where
  final_telemetry_steps : Nat
  reward_accumulated : ℚ
  done : Bool
  action_executed : String
  duration : Int
deriving DecidableEq, Repr

/-- The `for _ in range(duration)` loop of src/lunar_tools.py lines 85-99:
each iteration first checks `self.done` and breaks, else steps the process,
sets `done`, advances the counters and accumulates `step_rewards` (the frame
buffer is not modelled — no claim touches it). -/
def execLoop (env : Env) (code : Nat) : Nat → LanderState → ℚ → LanderState × ℚ
  | 0, st, acc => (st, acc)
  | n + 1, st, acc =>
    if st.done then (st, acc)
    else
      execLoop env code n
        { steps := st.steps + 1
          total_reward := st.total_reward + (env st.steps code).reward
          done := is_term (env st.steps code) }
        (acc + (env st.steps code).reward)

/-- src/lunar_tools.py lines 68-107, the ActionExecutor `execute_maneuver`:
maps the action name to a code, runs the frame loop, and returns the updated
interface state together with the result dict.  The `duration` parameter is an
`int` in the source (`int(fn.args.get("duration", 1))` at the call site); a
negative or zero value gives `range(duration)` of length 0, embedded via
`Int.toNat`. -/
def execute_maneuver (env : Env) (st : LanderState) (action_name : String)
    (duration : Int) : LanderState × ExecResult :=
  let code := action_map_get action_name
  let p := execLoop env code duration.toNat st 0
  (p.1,
    { final_telemetry_steps := p.1.steps
      reward_accumulated := p.2
      done := p.1.done
      action_executed := action_name
      duration := duration })

/-- Number of frames the loop body of `execute_maneuver` runs starting from a
not-done state at step counter `s0` with budget `n`: it stops after the first
frame whose outcome is terminal, and otherwise runs all `n` frames. -/
def frames_run (env : Env) (code : Nat) : Nat → Nat → Nat
  | _, 0 => 0
  | s0, n + 1 => if is_term (env s0 code) then 1 else frames_run env code (s0 + 1) n + 1

/-- A structured tool invocation in a Decider response event.  `fn.args` is a
dict; the three keys the extraction reads are modelled as optional fields
(`int(fn.args.get("duration", 1))` is embedded as an optional integer). -/
structure FnCall where
  action : Option String
  duration : Option Int
  reasoning : Option String
deriving DecidableEq, Repr

/-- One part of a response event's content: `part.function_call` is truthy or
not (free text parts carry no function call). -/
structure Part where
  function_call : Option FnCall
deriving DecidableEq, Repr

/-- One response event.  `content = none` models a falsy/absent
`event.content`; `some []` models content whose `parts` list is empty (falsy),
which the extraction also skips. -/
structure Event where
  content : Option (List Part)
deriving DecidableEq, Repr

/-- The decision dict {action, duration, reasoning}
(src/main_mission.py lines 144 and 174-178). -/
structure Decision where
  action : String
  duration : Int
  reasoning : String
deriving DecidableEq, Repr

/-- The pre-loop default of src/main_mission.py line 144 and
src/evaluate_agent.py line 116 (note the capital F in "Fallback"). -/
def default_decision : Decision :=
  { action := "HOLD", duration := 1, reasoning := "Fallback" }

/-- The decision dict built from a function call
(src/main_mission.py lines 174-178): missing args fall back to the dict-get
defaults "HOLD", 1 and "No reasoning provided". -/
def decision_of (fn : FnCall) : Decision :=
  { action := fn.action.getD "HOLD"
    duration := fn.duration.getD 1
    reasoning := fn.reasoning.getD "No reasoning provided" }

/-- Inner loop of the extraction (src/main_mission.py lines 171-180): scan the
parts of one event in order for the first truthy `function_call`. -/
def firstCallInParts : List Part → Option FnCall
  | [] => none
  | p :: ps =>
    match p.function_call with
    | some fn => some fn
    | none => firstCallInParts ps

/-- Outer loop of the extraction (src/main_mission.py lines 166-180): scan
events in order, skipping events with falsy content or empty parts, and stop
at the first event part holding a function call (the `found` flag plus the two
`break`s). -/
def firstCallInEvents : List Event → Option FnCall
  | [] => none
  | e :: es =>
    match e.content with
    | none => firstCallInEvents es
    | some ps =>
      if ps = [] then firstCallInEvents es
      else
        match firstCallInParts ps with
        | some fn => some fn
        | none => firstCallInEvents es

/-- src/main_mission.py lines 144-180 (identically src/evaluate_agent.py lines
116-152): the decision the turn uses is the one extracted from the first
function call found in the ordered events, and the pre-set default when no
function call is found (timeout leaves `events = []`; free-text-only or empty
responses have no truthy `function_call` part). -/
def extract_decision (events : List Event) : Decision :=
  match firstCallInEvents events with
  | some fn => decision_of fn
  | none => default_decision

/-- All function calls of a response, flattened in event order then part
order: the reference order for the first-wins tie-break. -/
def allCalls (events : List Event) : List FnCall :=
  events.flatMap fun e =>
    match e.content with
    | none => []
    | some ps => ps.filterMap fun p => p.function_call

/-- Step D of the turn pipeline (src/main_mission.py line 186, identically
src/evaluate_agent.py line 155): the extracted decision's action and duration
are passed directly to `lander.execute_maneuver` — no validation between
extraction and execution. -/
def turn_execute (env : Env) (st : LanderState) (events : List Event) :
    LanderState × ExecResult :=
  execute_maneuver env st (extract_decision events).action (extract_decision events).duration

/-- Mission outcome labels of src/main_mission.py lines 210-218. -/
inductive MissionStatus where
  | SUCCESS
  | CRASH
  | INCOMPLETE
deriving DecidableEq, Repr

/-- src/main_mission.py lines 210-218: `result_status` starts INCOMPLETE, is
set to SUCCESS when total reward ≥ 200, else to CRASH when ≤ −100. -/
def classify_outcome (total_reward : ℚ) : MissionStatus :=
  if 200 ≤ total_reward then MissionStatus.SUCCESS
  else if total_reward ≤ -100 then MissionStatus.CRASH
  else MissionStatus.INCOMPLETE

/-- Fault kinds relevant to the `except` clauses of the episode loop:
`KeyboardInterrupt` is caught by src/main_mission.py line 227; every other
exception (e.g. a process fault) is not. -/
inductive FaultKind where
  | keyboardInterrupt
  | otherError
deriving DecidableEq, Repr

/-- One mission-log entry (src/main_mission.py lines 190-197).  The telemetry
and advice strings do not enter any claim and are abstracted to the step
index, decision and execution result that identify the record. -/
structure TurnRecord where
  step : Nat
  commander_decision : Decision
  execution_result : ExecResult
deriving DecidableEq, Repr

/-- What one turn of the pipeline does, as seen by the episode loop: either it
completes, producing the log entry appended at step E and the `done` flag that
the `while` condition re-checks, or it raises. -/
inductive TurnOutcome where
  | ok (record : TurnRecord) (done : Bool)
  | fault (k : FaultKind)
deriving DecidableEq, Repr

/-- The `while not lander.done and step_count < max_steps` loop of
src/main_mission.py lines 105-204: `fuel` is the remaining step budget, `i`
the next `step_count` value.  A turn that raises stops the loop with its log
entry not appended; a completed turn appends its entry, and the loop exits
when the turn reports `done`. -/
def run_turns (turns : Nat → TurnOutcome) : Nat → Nat → List TurnRecord →
    List TurnRecord × Option FaultKind
  | 0, _, log => (log, none)
  | fuel + 1, i, log =>
    match turns i with
    | TurnOutcome.fault k => (log, some k)
    | TurnOutcome.ok rec done =>
      if done then (log ++ [rec], none)
      else run_turns turns fuel (i + 1) (log ++ [rec])

/-- Observable outcome of `main()` in src/main_mission.py: the returned status
string if the coroutine returns (`none` when it raises), the fault it
re-raises, the contents written to mission_log.json in the `finally` block,
and whether `lander.close()` ran. -/
structure MainOutcome where
  returned_status : Option String
  raised : Option FaultKind
  log_file : Option (List TurnRecord)
  lander_closed : Bool
deriving DecidableEq, Repr

/-- The status string printed/returned at mission end
(src/main_mission.py lines 210-218). -/
def status_string : MissionStatus → String
  | MissionStatus.SUCCESS => "SUCCESS"
  | MissionStatus.CRASH => "CRASH"
  | MissionStatus.INCOMPLETE => "INCOMPLETE"

/-- src/main_mission.py lines 104-240, the episode controller: run the turn
loop under `try`; on normal exit classify the outcome from the accumulated
total reward; `except KeyboardInterrupt` returns status ABORTED; any other
fault propagates out of `main` uncaught; the `finally` block always writes
mission_log.json with the entries logged so far and closes the lander. -/
def main_mission (turns : Nat → TurnOutcome) (max_steps : Nat)
    (total_reward : ℚ) : MainOutcome :=
  let r := run_turns turns max_steps 1 []
  match r.2 with
  | none =>
    { returned_status := some (status_string (classify_outcome total_reward))
      raised := none
      log_file := some r.1
      lander_closed := true }
  | some FaultKind.keyboardInterrupt =>
    { returned_status := some "ABORTED"
      raised := none
      log_file := some r.1
      lander_closed := true }
  | some FaultKind.otherError =>
    { returned_status := none
      raised := some FaultKind.otherError
      log_file := some r.1
      lander_closed := true }

/-- The ADK `EventsCompactionConfig` as configured in
src/main_mission.py lines 38-41 and src/evaluate_agent.py lines 26-29. -/
structure EventsCompactionConfig where
  compaction_interval : Nat
  overlap_size : Nat
deriving DecidableEq, Repr

/-- What the source configures on each Runner: the app name and the
compaction config of the `App` the runner is built from, if any.  A `Runner`
constructed from a bare agent (no `App` object) carries no
events-compaction config. -/
structure RunnerCfg where
  app_name : String
  compaction : Option EventsCompactionConfig
deriving DecidableEq, Repr

/-- src/main_mission.py lines 35-50: the Navigator's runner is built from the
`App` carrying `EventsCompactionConfig(compaction_interval=10, overlap_size=2)`. -/
def navigator_runner : RunnerCfg :=
  { app_name := "lunar_landing_mission"
    compaction := some { compaction_interval := 10, overlap_size := 2 } }

/-- src/main_mission.py lines 53-57: the Commander's runner is built from the
bare agent with only an app name and the shared session service — no `App`,
hence no events-compaction config. -/
def commander_runner : RunnerCfg :=
  { app_name := "lunar_landing_mission"
    compaction := none }

/-- src/evaluate_agent.py lines 23-33: same construction for the evaluation
Navigator runner. -/
def eval_navigator_runner : RunnerCfg :=
  { app_name := "lunar_eval"
    compaction := some { compaction_interval := 10, overlap_size := 2 } }

/-- src/evaluate_agent.py lines 36-40: same bare construction for the
evaluation Commander runner. -/
def eval_commander_runner : RunnerCfg :=
  { app_name := "lunar_eval"
    compaction := none }

/-- A runner's session history is subject to bounded compaction when its
configuration carries an events-compaction config. -/
def subject_to_compaction (r : RunnerCfg) : Prop := r.compaction ≠ none

instance (r : RunnerCfg) : Decidable (subject_to_compaction r) := by
  unfold subject_to_compaction
  infer_instance

/-- Fresh interface state right after `reset` (src/lunar_tools.py lines 16-21). -/
def st0 : LanderState := { steps := 0, total_reward := 0, done := false }

/-- Concrete trajectory oracle: never terminal, reward 1 per frame. -/
def env_free : Env := fun _ _ => { reward := 1, terminated := false, truncated := false }

/-- Concrete trajectory oracle: terminal at step counter 2, reward 5 there and
1 elsewhere. -/
def env_term2 : Env := fun s _ =>
  if s = 2 then { reward := 5, terminated := true, truncated := false }
  else { reward := 1, terminated := false, truncated := false }

/-- A tool call proposing a braking burst. -/
def fnA : FnCall :=
  { action := some "MAIN_ENGINE", duration := some 5, reasoning := some "brake" }

/-- A tool call proposing a tilt correction. -/
def fnB : FnCall :=
  { action := some "LEFT_ENGINE", duration := some 3, reasoning := some "tilt" }

/-- A response whose events hold three function calls in order fnA, fnB, fnB. -/
def events_two : List Event :=
  [ { content := some [{ function_call := some fnA }, { function_call := some fnB }] },
    { content := some [{ function_call := some fnB }] } ]

/-- A response holding two function calls, fnB then fnA. -/
def events_multi : List Event :=
  [ { content := some [{ function_call := some fnB }] },
    { content := some [{ function_call := some fnA }] } ]

/-- A free-text-only response: one event whose single part has no function
call. -/
def events_text : List Event := [ { content := some [{ function_call := none }] } ]

/-- A tool call whose arguments violate both validation rules: unknown action
name and duration outside 1..10. -/
def fn_bad : FnCall :=
  { action := some "BOOST", duration := some 50, reasoning := some "full power" }

/-- A response carrying the invalid tool call `fn_bad`. -/
def events_bad : List Event := [ { content := some [{ function_call := some fn_bad }] } ]

/-- A completed first turn's log entry. -/
def rec1 : TurnRecord :=
  { step := 1
    commander_decision := { action := "HOLD", duration := 1, reasoning := "steady" }
    execution_result :=
      { final_telemetry_steps := 1
        reward_accumulated := 1
        done := false
        action_executed := "HOLD"
        duration := 1 } }

/-- Turn schedule: turn 1 completes, turn 2 raises a non-KeyboardInterrupt
fault (e.g. a process fault). -/
def turns_fault : Nat → TurnOutcome := fun i =>
  if i = 1 then TurnOutcome.ok rec1 false else TurnOutcome.fault FaultKind.otherError

/-- Turn schedule: turn 1 completes, turn 2 raises KeyboardInterrupt. -/
def turns_kb : Nat → TurnOutcome := fun i =>
  if i = 1 then TurnOutcome.ok rec1 false else TurnOutcome.fault FaultKind.keyboardInterrupt

/-- A loop entered with `done` already true runs no frame. -/
lemma execLoop_of_done (env : Env) (code : Nat) (n : Nat) (st : LanderState) (acc : ℚ)
    (h : st.done = true) : execLoop env code n st acc = (st, acc) := by
  cases n with
  | zero => rfl
  | succ n => simp [execLoop, h]

/-- Characterization of the frame loop started in a not-done state: it
advances the step counter by `frames_run`, accumulates exactly the rewards of
the frames it ran, and ends done iff one of the frames it ran was terminal. -/
lemma execLoop_char (env : Env) (code : Nat) :
    ∀ (n : Nat) (st : LanderState) (acc : ℚ), st.done = false →
      (execLoop env code n st acc).1.steps = st.steps + frames_run env code st.steps n
    ∧ (execLoop env code n st acc).2 =
        acc + ∑ i in Finset.range (frames_run env code st.steps n), (env (st.steps + i) code).reward
    ∧ ((execLoop env code n st acc).1.done = true ↔
        ∃ i, i < frames_run env code st.steps n ∧ is_term (env (st.steps + i) code) = true) := by
  intro n
  induction n with
  | zero =>
    intro st acc h
    refine ⟨by simp [execLoop, frames_run], by simp [execLoop, frames_run], ?_⟩
    simp [execLoop, frames_run, h]
  | succ n ih =>
    intro st acc h
    by_cases h1 : is_term (env st.steps code) = true
    · have hrun : frames_run env code st.steps (n + 1) = 1 := by
        simp [frames_run, h1]
      have hstep : execLoop env code (n + 1) st acc =
          execLoop env code n
            { steps := st.steps + 1
              total_reward := st.total_reward + (env st.steps code).reward
              done := is_term (env st.steps code) }
            (acc + (env st.steps code).reward) := by
        simp [execLoop, h]
      rw [hstep, execLoop_of_done env code n _ _ (by simpa using h1)]
      refine ⟨by simp [hrun], by simp [hrun, Finset.sum_range_one], ?_⟩
      constructor
      · intro _
        exact ⟨0, by simp [hrun], by simpa using h1⟩
      · intro _
        simpa using h1
    · have h1' : is_term (env st.steps code) = false := by
        simpa using h1
      have hrun : frames_run env code st.steps (n + 1) =
          frames_run env code (st.steps + 1) n + 1 := by
        simp [frames_run, h1']
      have hstep : execLoop env code (n + 1) st acc =
          execLoop env code n
            { steps := st.steps + 1
              total_reward := st.total_reward + (env st.steps code).reward
              done := is_term (env st.steps code) }
            (acc + (env st.steps code).reward) := by
        simp [execLoop, h]
      have ih' := ih
        { steps := st.steps + 1
          total_reward := st.total_reward + (env st.steps code).reward
          done := is_term (env st.steps code) }
        (acc + (env st.steps code).reward) (by simpa using h1')
      obtain ⟨ihsteps, ihacc, ihdone⟩ := ih'
      dsimp only at ihsteps ihacc ihdone
      refine ⟨?_, ?_, ?_⟩
      · rw [hstep, ihsteps, hrun]
        omega
      · rw [hstep, ihacc, hrun, Finset.sum_range_succ']
        have hcongr : (∑ i ∈ Finset.range (frames_run env code (st.steps + 1) n),
              (env (st.steps + (i + 1)) code).reward)
            = ∑ i ∈ Finset.range (frames_run env code (st.steps + 1) n),
              (env (st.steps + 1 + i) code).reward := by
          refine Finset.sum_congr rfl ?_
          intro i _
          have e1 : st.steps + (i + 1) = st.steps + 1 + i := by omega
          rw [e1]
        rw [hcongr]
        have e0 : st.steps + 0 = st.steps := by omega
        rw [e0]
        ring
      · rw [hstep, hrun]
        rw [ihdone]
        constructor
        · rintro ⟨i, hi, ht⟩
          refine ⟨i + 1, by omega, ?_⟩
          have : st.steps + (i + 1) = st.steps + 1 + i := by omega
          rw [this]
          exact ht
        · rintro ⟨i, hi, ht⟩
          cases i with
          | zero =>
            exfalso
            rw [show st.steps + 0 = st.steps from by omega] at ht
            rw [h1'] at ht
            exact Bool.false_ne_true ht
          | succ j =>
            refine ⟨j, by omega, ?_⟩
            have : st.steps + 1 + j = st.steps + (j + 1) := by omega
            rw [this]
            exact ht

/-- Without a terminal frame in the budget, the loop runs all `n` frames. -/
lemma frames_run_of_no_term (env : Env) (code : Nat) :
    ∀ (n s0 : Nat), (∀ i, i < n → is_term (env (s0 + i) code) = false) →
      frames_run env code s0 n = n := by
  intro n
  induction n with
  | zero => intro s0 _; rfl
  | succ n ih =>
    intro s0 h
    have h0 : is_term (env s0 code) = false := by
      have := h 0 (by omega)
      simpa using this
    have hrest : ∀ i, i < n → is_term (env (s0 + 1 + i) code) = false := by
      intro i hi
      have := h (i + 1) (by omega)
      rw [show s0 + (i + 1) = s0 + 1 + i from by omega] at this
      exact this
    simp [frames_run, h0, ih (s0 + 1) hrest]

/-- With a first terminal frame at offset `j` inside the budget, the loop runs
exactly `j + 1` frames. -/
lemma frames_run_of_first_term (env : Env) (code : Nat) :
    ∀ (n s0 j : Nat), j < n → is_term (env (s0 + j) code) = true →
      (∀ i, i < j → is_term (env (s0 + i) code) = false) →
      frames_run env code s0 n = j + 1 := by
  intro n
  induction n with
  | zero => intro s0 j hj _ _; omega
  | succ n ih =>
    intro s0 j hj ht hmin
    cases j with
    | zero =>
      have h0 : is_term (env s0 code) = true := by simpa using ht
      simp [frames_run, h0]
    | succ k =>
      have h0 : is_term (env s0 code) = false := by
        have := hmin 0 (by omega)
        simpa using this
      have ht' : is_term (env (s0 + 1 + k) code) = true := by
        rw [show s0 + 1 + k = s0 + (k + 1) from by omega]
        exact ht
      have hmin' : ∀ i, i < k → is_term (env (s0 + 1 + i) code) = false := by
        intro i hi
        rw [show s0 + 1 + i = s0 + (i + 1) from by omega]
        exact hmin (i + 1) (by omega)
      simp [frames_run, h0, ih (s0 + 1) k (by omega) ht' hmin']

/-- The inner part scan returns the head of the filtered function calls. -/
lemma firstCallInParts_eq (ps : List Part) :
    firstCallInParts ps = (ps.filterMap fun p => p.function_call).head? := by
  induction ps with
  | nil => rfl
  | cons p ps ih =>
    cases hp : p.function_call with
    | some fn => simp [firstCallInParts, hp, List.filterMap_cons]
    | none => simp [firstCallInParts, hp, List.filterMap_cons, ih]

/-- The event scan returns the head of all function calls in event order. -/
lemma firstCallInEvents_eq (events : List Event) :
    firstCallInEvents events = (allCalls events).head? := by
  induction events with
  | nil => rfl
  | cons e es ih =>
    cases hc : e.content with
    | none => simp [firstCallInEvents, allCalls, List.flatMap_cons, hc, ih]
    | some ps =>
      by_cases hps : ps = []
      · subst hps
        simp [firstCallInEvents, allCalls, List.flatMap_cons, hc, ih]
      · cases hfm : ps.filterMap fun p => p.function_call with
        | nil =>
          have h1 : firstCallInParts ps = none := by
            rw [firstCallInParts_eq, hfm]
            rfl
          simp [firstCallInEvents, allCalls, List.flatMap_cons, hc, hps, h1, hfm, ih]
        | cons fn rest =>
          have h1 : firstCallInParts ps = some fn := by
            rw [firstCallInParts_eq, hfm]
            rfl
          simp [firstCallInEvents, allCalls, List.flatMap_cons, hc, hps, h1, hfm]

/-- Claim C4: for every candidate decision, the ActionValidator (the
`execute_maneuver` tool of src/agents.py) returns a success result — echoing
the inputs unmodified, never coercing them — iff the action is in the
vocabulary and 1 ≤ duration ≤ 10, and returns a typed error result for every
other input. -/
theorem validator_accepts_iff (a : String) (d : Int) (r : String) :
    ((execute_maneuver_tool a d r = ToolResult.success a d r) ↔
      (a ∈ valid_actions ∧ 1 ≤ d ∧ d ≤ 10))
    ∧ ((∃ m, execute_maneuver_tool a d r = ToolResult.error m) ↔
      ¬ (a ∈ valid_actions ∧ 1 ≤ d ∧ d ≤ 10)) := by
  by_cases h1 : a ∈ valid_actions
  · by_cases h2 : 1 ≤ d ∧ d ≤ 10
    · constructor
      · simp [execute_maneuver_tool, h1, h2]
      · simp [execute_maneuver_tool, h1, h2]
    · constructor
      · simp [execute_maneuver_tool, h1, h2]
      · simp [execute_maneuver_tool, h1, h2]
  · constructor
    · simp [execute_maneuver_tool, h1]
    · simp [execute_maneuver_tool, h1]

/-- Claim C8: the ActionExecutor's `action_map` sends HOLD to the no-op code
0, MAIN_ENGINE to 2, RIGHT_ENGINE to 1 and LEFT_ENGINE to 3
(src/lunar_tools.py lines 73-78).  The rotation-direction gloss (LEFT_ENGINE
firing the engine on the vehicle's right side, rotating it counter-clockwise)
concerns the external process's physics and is outside the embedding; the
checkable content is this exact code assignment. -/
theorem action_code_mapping :
    action_map_get "HOLD" = 0 ∧ action_map_get "MAIN_ENGINE" = 2
    ∧ action_map_get "RIGHT_ENGINE" = 1 ∧ action_map_get "LEFT_ENGINE" = 3 := by
  refine ⟨by decide, by decide, by decide, by decide⟩

/-- Claim C6: at episode termination the outcome is classified from the
accumulated total reward exactly as: SUCCESS iff total ≥ 200, CRASH iff
total ≤ −100, INCOMPLETE otherwise (src/main_mission.py lines 210-218). -/
theorem outcome_classification_iff (r : ℚ) :
    (classify_outcome r = MissionStatus.SUCCESS ↔ 200 ≤ r)
    ∧ (classify_outcome r = MissionStatus.CRASH ↔ r ≤ -100)
    ∧ (classify_outcome r = MissionStatus.INCOMPLETE ↔ (-100 < r ∧ r < 200)) := by
  by_cases h1 : 200 ≤ r
  · have hs : classify_outcome r = MissionStatus.SUCCESS := by
      simp [classify_outcome, h1]
    refine ⟨by simp [hs, h1], ?_, ?_⟩
    · rw [hs]
      simp only [reduceCtorEq, false_iff]
      intro hc
      linarith
    · rw [hs]
      simp only [reduceCtorEq, false_iff]
      rintro ⟨-, hc⟩
      linarith
  · by_cases h2 : r ≤ -100
    · have hs : classify_outcome r = MissionStatus.CRASH := by
        simp [classify_outcome, h1, h2]
      refine ⟨?_, by simp [hs, h2], ?_⟩
      · rw [hs]
        simp only [reduceCtorEq, false_iff]
        intro hc
        exact h1 hc
      · rw [hs]
        simp only [reduceCtorEq, false_iff]
        rintro ⟨hc, -⟩
        linarith
    · have hs : classify_outcome r = MissionStatus.INCOMPLETE := by
        simp [classify_outcome, h1, h2]
      refine ⟨?_, ?_, ?_⟩
      · rw [hs]
        simp only [reduceCtorEq, false_iff]
        exact h1
      · rw [hs]
        simp only [reduceCtorEq, false_iff]
        exact h2
      · rw [hs]
        simp only [true_iff]
        constructor
        · linarith [lt_of_not_le h2]
        · linarith [lt_of_not_le h1]

/-- Claim C5: when a Decider response holds one or more structured tool
invocations, the decision used is the one built from the first invocation in
event order; all later ones are ignored. -/
theorem first_tool_call_wins (events : List Event) (fn : FnCall) (rest : List FnCall)
    (h : allCalls events = fn :: rest) :
    extract_decision events = decision_of fn := by
  unfold extract_decision
  rw [firstCallInEvents_eq, h]
  rfl

/-- Witness for `first_tool_call_wins`: a response with three calls in order
fnA, fnB, fnB yields exactly fnA's decision. -/
theorem first_tool_call_wins_witness :
    extract_decision events_two = decision_of fnA :=
  first_tool_call_wins events_two fnA [fnB, fnB] rfl

/-- Claim C10: the `duration` field of the returned ExecutionResult always
equals the requested duration (src/lunar_tools.py line 106), even when the
loop stopped early at a terminal frame — shown concretely by a 5-frame
request on a trajectory that terminates at its third frame, which runs 3
frames yet records duration 5. -/
theorem result_duration_echoes_request :
    (∀ (env : Env) (st : LanderState) (a : String) (d : Int),
      (execute_maneuver env st a d).2.duration = d)
    ∧ ((execute_maneuver env_term2 st0 "HOLD" 5).2.duration = 5
      ∧ (execute_maneuver env_term2 st0 "HOLD" 5).1.steps = 3
      ∧ (execute_maneuver env_term2 st0 "HOLD" 5).2.done = true) := by
  refine ⟨fun env st a d => rfl, rfl, by decide, by decide⟩

/-- Claim C3: for a validated decision (1 ≤ d ≤ 10) executed from a not-done
state, the executor runs exactly `d` frames when no frame in the budget is
terminal (ending not done), stops at the first terminal frame `j` with
`done = true` after `j + 1` frames otherwise, and in all cases the
`reward_accumulated` field is the sum of the per-frame rewards over exactly
the frames executed.  One ExecutionResult is produced per invocation by the
type of `execute_maneuver`. -/
theorem executor_burst_semantics (env : Env) (st : LanderState) (a : String) (d : Int)
    (h0 : st.done = false) (h1 : 1 ≤ d) (h2 : d ≤ 10) :
    ((∀ i, i < d.toNat → is_term (env (st.steps + i) (action_map_get a)) = false) →
      (execute_maneuver env st a d).1.steps = st.steps + d.toNat
      ∧ (execute_maneuver env st a d).2.done = false)
    ∧ (∀ j, j < d.toNat → is_term (env (st.steps + j) (action_map_get a)) = true →
        (∀ i, i < j → is_term (env (st.steps + i) (action_map_get a)) = false) →
      (execute_maneuver env st a d).1.steps = st.steps + (j + 1)
      ∧ (execute_maneuver env st a d).2.done = true)
    ∧ (execute_maneuver env st a d).2.reward_accumulated =
        ∑ i ∈ Finset.range ((execute_maneuver env st a d).1.steps - st.steps),
          (env (st.steps + i) (action_map_get a)).reward := by
  obtain ⟨hsteps, hacc, hdone⟩ :=
    execLoop_char env (action_map_get a) d.toNat st 0 h0
  have hfst : (execute_maneuver env st a d).1 =
      (execLoop env (action_map_get a) d.toNat st 0).1 := rfl
  have hdn : (execute_maneuver env st a d).2.done =
      (execLoop env (action_map_get a) d.toNat st 0).1.done := rfl
  have hrw : (execute_maneuver env st a d).2.reward_accumulated =
      (execLoop env (action_map_get a) d.toNat st 0).2 := rfl
  refine ⟨?_, ?_, ?_⟩
  · intro hno
    have hfr : frames_run env (action_map_get a) st.steps d.toNat = d.toNat :=
      frames_run_of_no_term env (action_map_get a) d.toNat st.steps hno
    constructor
    · rw [hfst, hsteps, hfr]
    · rw [hdn]
      cases hb : (execLoop env (action_map_get a) d.toNat st 0).1.done with
      | false => rfl
      | true =>
        exfalso
        obtain ⟨i, hi, ht⟩ := hdone.mp hb
        rw [hfr] at hi
        rw [hno i hi] at ht
        exact Bool.false_ne_true ht
  · intro j hj ht hmin
    have hfr : frames_run env (action_map_get a) st.steps d.toNat = j + 1 :=
      frames_run_of_first_term env (action_map_get a) d.toNat st.steps j hj ht hmin
    constructor
    · rw [hfst, hsteps, hfr]
    · rw [hdn]
      exact hdone.mpr ⟨j, by omega, ht⟩
  · rw [hrw, hacc, hfst, hsteps]
    have hsub : st.steps + frames_run env (action_map_get a) st.steps d.toNat - st.steps =
        frames_run env (action_map_get a) st.steps d.toNat := by
      omega
    rw [hsub]
    ring

/-- Witness for `executor_burst_semantics`: on the trajectory terminal at step
counter 2, a 4-frame MAIN_ENGINE burst from the fresh state runs 3 frames and
ends done, collecting rewards 1 + 1 + 5 = 7. -/
theorem executor_burst_semantics_witness :
    (execute_maneuver env_term2 st0 "MAIN_ENGINE" 4).1.steps = 3
    ∧ (execute_maneuver env_term2 st0 "MAIN_ENGINE" 4).2.done = true
    ∧ (execute_maneuver env_term2 st0 "MAIN_ENGINE" 4).2.reward_accumulated = 7 := by
  have h := executor_burst_semantics env_term2 st0 "MAIN_ENGINE" 4 rfl (by decide) (by decide)
  have h2 := h.2.1 2 (by decide) (by decide) (by decide)
  refine ⟨by simpa using h2.1, h2.2, ?_⟩
  rw [h.2.2, h2.1]
  norm_num [Finset.sum_range_succ, env_term2, st0]

/-- Counterexample to claim C1: the decision extracted from `events_bad`
violates both invariant parts (action "BOOST" not in the vocabulary, duration
50 outside 1..10), the ActionValidator would reject it, yet the turn pipeline
passes it to the ActionExecutor, which coerces the unknown action to the
no-op code 0 and runs all 50 frames. -/
theorem decision_bypasses_validator_cex :
    (extract_decision events_bad).action ∉ valid_actions
    ∧ ¬ (1 ≤ (extract_decision events_bad).duration
        ∧ (extract_decision events_bad).duration ≤ 10)
    ∧ (∃ m, execute_maneuver_tool (extract_decision events_bad).action
        (extract_decision events_bad).duration (extract_decision events_bad).reasoning
          = ToolResult.error m)
    ∧ (turn_execute env_free st0 events_bad).2.final_telemetry_steps = 50
    ∧ action_map_get (extract_decision events_bad).action = 0 := by
  refine ⟨by decide, by decide, ⟨_, rfl⟩, by decide, by decide⟩

/-- Claim C1 as amended: no validation happens between extraction and
execution — whatever decision is extracted, even one whose action is outside
the vocabulary, is handed to the ActionExecutor, which coerces the unknown
action name to the no-op code 0 and executes it, echoing the unvalidated
action and duration in its result. -/
theorem unvalidated_decision_executes (events : List Event) (env : Env) (st : LanderState)
    (h : (extract_decision events).action ∉ valid_actions) :
    action_map_get (extract_decision events).action = 0
    ∧ (turn_execute env st events).2.action_executed = (extract_decision events).action
    ∧ (turn_execute env st events).2.duration = (extract_decision events).duration := by
  refine ⟨?_, rfl, rfl⟩
  have hh : (extract_decision events).action ≠ "HOLD" := fun hc => h (by rw [hc]; decide)
  have hm : (extract_decision events).action ≠ "MAIN_ENGINE" := fun hc => h (by rw [hc]; decide)
  have hl : (extract_decision events).action ≠ "LEFT_ENGINE" := fun hc => h (by rw [hc]; decide)
  have hr : (extract_decision events).action ≠ "RIGHT_ENGINE" := fun hc => h (by rw [hc]; decide)
  simp [action_map_get, hh, hm, hl, hr]

/-- Witness for `unvalidated_decision_executes` at the invalid decision of
`events_bad`. -/
theorem unvalidated_decision_executes_witness :
    action_map_get (extract_decision events_bad).action = 0
    ∧ (turn_execute env_free st0 events_bad).2.action_executed =
        (extract_decision events_bad).action
    ∧ (turn_execute env_free st0 events_bad).2.duration =
        (extract_decision events_bad).duration :=
  unvalidated_decision_executes events_bad env_free st0 (by decide)

/-- Counterexample to claim C2: the default decision's reasoning string is
"Fallback" (capital F), not "fallback"; and on a response with two tool
calls the code returns the first call's decision, not the default. -/
theorem fallback_default_cex :
    extract_decision ([] : List Event) =
      { action := "HOLD", duration := 1, reasoning := "Fallback" }
    ∧ ({ action := "HOLD", duration := 1, reasoning := "Fallback" } : Decision) ≠
      { action := "HOLD", duration := 1, reasoning := "fallback" }
    ∧ (allCalls events_multi).length = 2
    ∧ extract_decision events_multi ≠ default_decision := by
  refine ⟨rfl, by decide, rfl, by decide⟩

/-- Claim C2 as amended: on every turn whose response yields no structured
tool call (timeout leaves the event list empty; free-text-only or empty
responses have no function-call part), the extraction returns exactly the
default decision HOLD, duration 1, reasoning "Fallback" (capital F), and by
its type it returns exactly one decision per turn; responses with multiple
tool calls instead yield the first call's decision (first-wins), not the
default. -/
theorem fallback_on_no_tool_call (events : List Event) (h : allCalls events = []) :
    extract_decision events =
      { action := "HOLD", duration := 1, reasoning := "Fallback" } := by
  unfold extract_decision
  rw [firstCallInEvents_eq, h]
  rfl

/-- Witness for `fallback_on_no_tool_call`: a free-text-only response yields
the default. -/
theorem fallback_on_no_tool_call_witness :
    extract_decision events_text =
      { action := "HOLD", duration := 1, reasoning := "Fallback" } :=
  fallback_on_no_tool_call events_text rfl

/-- Counterexample to claim C7: a fault other than KeyboardInterrupt during
turn 2 does not transition the episode to ABORTED — `main` re-raises it and
returns no status at all — although the finally block still writes the
mission log holding the record of turn 1 and closes the lander. -/
theorem fault_not_aborted_cex :
    (main_mission turns_fault 100 1).raised = some FaultKind.otherError
    ∧ (main_mission turns_fault 100 1).returned_status = none
    ∧ (main_mission turns_fault 100 1).log_file = some [rec1]
    ∧ (main_mission turns_fault 100 1).lander_closed = true := by
  refine ⟨rfl, rfl, rfl, rfl⟩

/-- Claim C7 as amended: only a KeyboardInterrupt is caught and turned into
an ABORTED status; any other uncaught fault propagates out of `main` with no
status returned; on every exit path — normal, interrupted or faulted — the
finally block writes the mission log with exactly the TurnRecords logged
before the exit and closes the lander process. -/
theorem episode_cleanup_paths (turns : Nat → TurnOutcome) (max_steps : Nat) (tr : ℚ) :
    (main_mission turns max_steps tr).log_file = some (run_turns turns max_steps 1 []).1
    ∧ (main_mission turns max_steps tr).lander_closed = true
    ∧ ((run_turns turns max_steps 1 []).2 = some FaultKind.keyboardInterrupt →
        (main_mission turns max_steps tr).returned_status = some "ABORTED"
        ∧ (main_mission turns max_steps tr).raised = none)
    ∧ ((run_turns turns max_steps 1 []).2 = some FaultKind.otherError →
        (main_mission turns max_steps tr).raised = some FaultKind.otherError
        ∧ (main_mission turns max_steps tr).returned_status = none)
    ∧ ((run_turns turns max_steps 1 []).2 = none →
        (main_mission turns max_steps tr).raised = none
        ∧ (main_mission turns max_steps tr).returned_status =
            some (status_string (classify_outcome tr))) := by
  rcases hf : (run_turns turns max_steps 1 []).2 with - | k
  · simp [main_mission, hf]
  · cases k
    · simp [main_mission, hf]
    · simp [main_mission, hf]

/-- Witness for `episode_cleanup_paths`: on the KeyboardInterrupt schedule the
mission returns ABORTED, preserves turn 1's record in the flushed log, and
closes the lander. -/
theorem episode_cleanup_paths_witness :
    (main_mission turns_kb 100 1).returned_status = some "ABORTED"
    ∧ (main_mission turns_kb 100 1).log_file = some [rec1]
    ∧ (main_mission turns_kb 100 1).lander_closed = true := by
  have h := episode_cleanup_paths turns_kb 100 1
  exact ⟨(h.2.2.1 rfl).1, h.1.trans rfl, h.2.1⟩

/-- Counterexample to claim C9: neither the mission Commander runner nor the
evaluation Commander runner is subject to bounded compaction — both are
constructed from the bare agent with no events-compaction config, so the
Decider's per-role session is not covered by the compaction policy. -/
theorem commander_not_compacted_cex :
    ¬ subject_to_compaction commander_runner
    ∧ ¬ subject_to_compaction eval_commander_runner := by
  constructor
  · intro h
    exact h rfl
  · intro h
    exact h rfl

/-- Claim C9 as amended: only the Advisor's (Navigator's) runner carries the
bounded-compaction policy — interval 10 turns, keeping the last 2 exchanges —
in both the mission and the evaluation entry points; the Decider's
(Commander's) runner is configured without any compaction, so only the
Advisor's history is bounded by it. -/
theorem compaction_config_per_runner :
    navigator_runner.compaction = some { compaction_interval := 10, overlap_size := 2 }
    ∧ eval_navigator_runner.compaction = some { compaction_interval := 10, overlap_size := 2 }
    ∧ commander_runner.compaction = none
    ∧ eval_commander_runner.compaction = none :=
  ⟨rfl, rfl, rfl, rfl⟩

end Armstrong
